import Mathlib

/-!
Verification development for the StreamlitCodebaseChat retrieval pipeline.

The development shallowly embeds the retrieval-and-orchestration core of the
repository:

* `similarity_search` embeds `PineconeService.similarity_search` from
  `src/services/pinecone_service.py`.
* `app_similarity_search` embeds the variant of `similarity_search` embedded
  in the top-level `app.py`.
* `formatResults` embeds the formatting part of
  `RetrievalToolService.execute` from `src/services/retrieval_service.py`,
  and `execute` embeds that method as a whole.
* `get_response` embeds `OpenAIService.get_response` from
  `src/services/openai_service.py`; `chat` is `get_response` wired to
  `RetrievalToolService.execute` the way `src/ui/components.py` wires it.
* `register`, `get_tool`, `get_all_tools` embed `ToolRegistry` from
  `src/services/ai/registry.py`.

External collaborators (the embedding client, the vector index, the language
model) are passed in as explicit outcome values or oracle functions, so every
code path of the embedded functions is driven by those parameters exactly as
the Python control flow is driven by the collaborator calls.  Similarity
scores are modelled as rationals: the code only compares them via
`float(x["score"])`, so any linearly ordered, decidable numeric type is a
faithful model of the comparisons performed.  Python dictionaries that are
used as string-keyed payloads (`metadata`, the registry) are modelled as
insertion-ordered association lists, matching dict iteration order and
overwrite semantics.  Observable effects that claims talk about (which
collaborator calls happen) are returned as an explicit event trace.
-/

/-- Opaque metadata payload stored alongside a vector.  The code only reads
string-valued fields from it (`"text"`, `"github_url"`), so values are
modelled as strings; keys are unique as in a Python dict. -/
abbrev Metadata := List (String × String)

/-- Model of Python `dict.get(key)` returning `None` when absent. -/
def metaGet (m : Metadata) (key : String) : Option String :=
  (m.find? (fun p => p.1 == key)).map (fun p => p.2)

/-- Model of Python `dict.get(key, default)`. -/
def metaGetD (m : Metadata) (key : String) (d : String) : String :=
  (metaGet m key).getD d

/-- One raw match returned by the vector index collaborator
(`response.matches` element: a score and a metadata payload). -/
structure IndexMatch where
  score : ℚ
  metadata : Metadata
deriving DecidableEq, Repr

/-- One entry of the list returned by
`PineconeService.similarity_search` in `src/services/pinecone_service.py`:
the dict `{"score": ..., "metadata": ..., "namespace": ...}`.  The field
`nspace` stands for the `"namespace"` key (`namespace` is a Lean keyword). -/
structure SearchResult where
  score : ℚ
  metadata : Metadata
  nspace : String
deriving DecidableEq, Repr

/-- The exception class `PineconeServiceError` (defined identically in
`src/services/pinecone_service.py` and in the top-level `app.py`), carrying
its message string. -/
inductive PineconeServiceError where
  | serviceError (msg : String)
deriving DecidableEq, Repr

/-- Outcome of the embedding collaborator call
`self.embeddings.embed_query(query)`: either the embedding vector or the
raised exception (as its message). -/
abbrev EmbedOutcome := Except String (List ℚ)

/-- Oracle for the vector index collaborator call
`self.index.query(vector=..., top_k=..., include_metadata=True,
namespace=...)`: given the vector, `top_k` and the (optional) namespace it
yields the matches or the raised exception. -/
abbrev IndexQuery := List ℚ → Nat → Option String → Except String (List IndexMatch)

/-- Comparison used by the sort in `similarity_search`:
`all_results.sort(key=lambda x: float(x["score"]), reverse=True)`.
`scoreGE a b` holds when `a` may precede `b` in the descending order. -/
def scoreGE (a b : SearchResult) : Prop := b.score ≤ a.score

instance : DecidableRel scoreGE :=
  fun a b => decidable_of_iff (b.score ≤ a.score) Iff.rfl

instance : IsTotal SearchResult scoreGE :=
  ⟨fun a b => le_total b.score a.score⟩

instance : IsTrans SearchResult scoreGE :=
  ⟨fun _ _ _ h1 h2 => le_trans h2 h1⟩

/-- Body of the per-namespace loop in
`PineconeService.similarity_search`: query one namespace, append its tagged
matches to the accumulator `all_results`; on an exception, log and
`continue` (accumulator unchanged). -/
def svcStep (iq : IndexQuery) (v : List ℚ) (k : Nat)
    (acc : List SearchResult) (n : String) : List SearchResult :=
  match iq v k (some n) with
  | .error _ => acc
  | .ok ms => acc ++ ms.map (fun m =>
      { score := m.score, metadata := m.metadata, nspace := n })

/-- The value of `all_results` after the `for namespace in namespaces` loop
of `PineconeService.similarity_search` (candidates in discovery order:
namespace iteration order, then per-namespace result order). -/
def collectCandidates (iq : IndexQuery) (v : List ℚ) (k : Nat)
    (nss : List String) : List SearchResult :=
  nss.foldl (svcStep iq v k) []

/-- `PineconeService.similarity_search` from
`src/services/pinecone_service.py`.  Control flow of the source: embed the
query (outer `try` wraps any exception into
`PineconeServiceError("Error in similarity search: ...")`); if `namespaces`
is truthy (non-empty) run the per-namespace loop with per-namespace
exception swallowing, then stable-sort all candidates by score descending
and keep the first `k`; otherwise issue one unscoped query and tag each
match with the `"default"` namespace (a failure of that single query hits
the outer handler). -/
def similarity_search (embed : EmbedOutcome) (iq : IndexQuery)
    (k : Nat) (nss : List String) :
    Except PineconeServiceError (List SearchResult) :=
  match embed with
  | .error e => .error (.serviceError ("Error in similarity search: " ++ e))
  | .ok v =>
    if nss ≠ [] then
      .ok ((List.insertionSort scoreGE (collectCandidates iq v k nss)).take k)
    else
      match iq v k none with
      | .error e => .error (.serviceError ("Error in similarity search: " ++ e))
      | .ok ms => .ok (ms.map (fun m =>
          { score := m.score, metadata := m.metadata, nspace := "default" }))

/-- One entry of the list returned by the `similarity_search` variant in the
top-level `app.py`: on the namespaced path the dict has a `"namespace"` key,
on the unscoped path it does not, so the key is modelled as an `Option`. -/
structure AppSearchResult where
  score : ℚ
  metadata : Metadata
  nspace : Option String
deriving DecidableEq, Repr

/-- Comparison used by the sort in the `app.py` variant (same
`key=lambda x: float(x["score"]), reverse=True`). -/
def appScoreGE (a b : AppSearchResult) : Prop := b.score ≤ a.score

instance : DecidableRel appScoreGE :=
  fun a b => decidable_of_iff (b.score ≤ a.score) Iff.rfl

/-- Body of the per-namespace loop of the `app.py` variant of
`similarity_search` (same catch-and-continue shape as the service variant,
building dicts whose `"namespace"` key is present). -/
def appStep (iq : IndexQuery) (v : List ℚ) (k : Nat)
    (acc : List AppSearchResult) (n : String) : List AppSearchResult :=
  match iq v k (some n) with
  | .error _ => acc
  | .ok ms => acc ++ ms.map (fun m =>
      { score := m.score, metadata := m.metadata, nspace := some n })

/-- `PineconeService.similarity_search` as written in the top-level
`app.py`: same outer exception wrapper, same truthiness split, same loop,
stable sort and truncation; the unscoped branch returns dicts without a
`"namespace"` key. -/
def app_similarity_search (embed : EmbedOutcome) (iq : IndexQuery)
    (k : Nat) (nss : List String) :
    Except PineconeServiceError (List AppSearchResult) :=
  match embed with
  | .error e => .error (.serviceError ("Error in similarity search: " ++ e))
  | .ok v =>
    if nss ≠ [] then
      .ok ((List.insertionSort appScoreGE (nss.foldl (appStep iq v k) [])).take k)
    else
      match iq v k none with
      | .error e => .error (.serviceError ("Error in similarity search: " ++ e))
      | .ok ms => .ok (ms.map (fun m =>
          { score := m.score, metadata := m.metadata, nspace := none }))

/-- Observable collaborator calls made during one orchestrated query.
`initialModelCall` is the first `chat.completions.create` of
`OpenAIService.get_response`; `retrievalCall` records the arguments the
retrieval function is invoked with; `draftModelCall` is the completion made
inside `RetrievalToolService.execute` to draft an answer from the retrieved
context; `finalModelCall` is the final `chat.completions.create` of
`OpenAIService.get_response`. -/
inductive Event where
  | initialModelCall
  | retrievalCall (q : String) (k : Nat) (nss : List String)
  | draftModelCall
  | finalModelCall
deriving DecidableEq, Repr

/-- The `options` object of the search tool arguments
(`args["options"]["num_results"]`, `args["options"]["namespaces"]`). -/
structure ToolOptions where
  num_results : Nat
  namespaces : List String
deriving DecidableEq, Repr

/-- Parsed tool-call arguments (`json.loads(tool_call.function.arguments)`,
already well-formed: no claim exercises the malformed-JSON path). -/
structure ToolCallArgs where
  query : String
  options : ToolOptions
deriving DecidableEq, Repr

/-- One tool call from the model response (`tool_call.id`,
`tool_call.function.name`, parsed `tool_call.function.arguments`). -/
structure ToolCall where
  id : String
  name : String
  arguments : ToolCallArgs
deriving DecidableEq, Repr

/-- The first-call response message (`completion.choices[0].message`):
optional text content and the (possibly empty) tool-call list. -/
structure ResponseMessage where
  content : Option String
  tool_calls : List ToolCall
deriving DecidableEq, Repr

/-- The `"documents"` field of the dict returned by
`OpenAIService.get_response`: the literal `[]` on the no-tool-call branch,
or the retrieval function return value passed through verbatim on the
tool-call branch. -/
inductive GetRespDocs (α : Type) where
  | emptyList
  | searchResults (v : α)
deriving DecidableEq, Repr

/-- The dict returned by `OpenAIService.get_response`
(`{"answer": ..., "documents": ...}`); the answer is the final completion
message content, which may be `None`. -/
structure ChatResult (α : Type) where
  answer : Option String
  documents : GetRespDocs α
deriving DecidableEq, Repr

/-- Failure of `OpenAIService.get_response`: its `except` block re-raises
whatever was raised, so the error is either a provider (OpenAI) exception
from one of the two completion calls or whatever the retrieval function
raised. -/
inductive ChatError (ρ : Type) where
  | provider (msg : String)
  | retrieval (e : ρ)
deriving DecidableEq, Repr

/-- The hard-coded answer returned by `OpenAIService.get_response` when the
model response carries no tool call. -/
def apologyMessage : String :=
  "I apologize, but I was unable to search the codebase. Please try again."

/-- `OpenAIService.get_response` from `src/services/openai_service.py`.
Parameters mirror the source signature (`query`, `retrieval_function`, `k`,
`namespaces`) plus the collaborator outcomes: `firstCall` is the outcome of
the initial completion, `finalCall` the outcome of the final completion.
The retrieval function returns its result together with its own event
trace.  Source control flow: if the first response has tool calls, take the
first one, parse its arguments, call `retrieval_function` with
`args["query"]`, `args["options"]["num_results"]` and
`args["options"]["namespaces"]` (the `query`, `k`, `namespaces` parameters
are not used there), then make the final completion and return its content
with the retrieval result as `"documents"`; with no tool call return the
apology with `"documents": []`; any exception is logged and re-raised.

The function is split in two: `getRespAfterRetrieval` is the part of
`OpenAIService.get_response` that runs after the retrieval call returned
(send the results back to the model through the final completion and
assemble the returned dict, or propagate the retrieval failure), taking
the retrieval outcome as a value; `get_response` is the whole method. -/
def getRespAfterRetrieval {ρ α : Type}
    (finalCall : Except String (Option String)) (tc : ToolCall)
    (r : Except ρ α × List Event) :
    Except (ChatError ρ) (ChatResult α) × List Event :=
  match r with
  | (.error e, revs) =>
    (.error (.retrieval e),
     Event.initialModelCall ::
       Event.retrievalCall tc.arguments.query tc.arguments.options.num_results
         tc.arguments.options.namespaces :: revs)
  | (.ok out, revs) =>
    match finalCall with
    | .error e =>
      (.error (.provider e),
       (Event.initialModelCall ::
         Event.retrievalCall tc.arguments.query tc.arguments.options.num_results
           tc.arguments.options.namespaces :: revs) ++ [.finalModelCall])
    | .ok content =>
      (.ok { answer := content, documents := .searchResults out },
       (Event.initialModelCall ::
         Event.retrievalCall tc.arguments.query tc.arguments.options.num_results
           tc.arguments.options.namespaces :: revs) ++ [.finalModelCall])

def get_response {ρ α : Type}
    (firstCall : Except String ResponseMessage)
    (retrieval : String → Nat → List String → Except ρ α × List Event)
    (finalCall : Except String (Option String))
    (query : String) (k : Nat) (namespaces : List String) :
    Except (ChatError ρ) (ChatResult α) × List Event :=
  match firstCall with
  | .error e => (.error (.provider e), [.initialModelCall])
  | .ok rm =>
    match rm.tool_calls with
    | [] =>
      (.ok { answer := some apologyMessage, documents := .emptyList },
       [.initialModelCall])
    | tc :: _ =>
      getRespAfterRetrieval finalCall tc
        (retrieval tc.arguments.query tc.arguments.options.num_results
          tc.arguments.options.namespaces)

/-- One normalized document built by `RetrievalToolService.execute` in
`src/services/retrieval_service.py`: content from `metadata.get("text", "")`,
the full metadata, the namespace, the score, and the `"github_url"` key when
present in the metadata. -/
structure Document where
  content : String
  metadata : Metadata
  nspace : String
  score : ℚ
  github_url : Option String
deriving DecidableEq, Repr

/-- The document dict built for one search result in
`RetrievalToolService.execute`. -/
def formatDocument (r : SearchResult) : Document :=
  { content := metaGetD r.metadata "text" ""
  , metadata := r.metadata
  , nspace := r.nspace
  , score := r.score
  , github_url := metaGet r.metadata "github_url" }

/-- The context line built for one search result in
`RetrievalToolService.execute`: the f-string joining `Content: ` with the
content, a newline, and `Source: ` with `metadata.get("github_url")`
defaulting to `Unknown`. -/
def contextPart (r : SearchResult) : String :=
  "Content: " ++ metaGetD r.metadata "text" "" ++ "\nSource: " ++
    metaGetD r.metadata "github_url" "Unknown"

/-- The formatting stage of `RetrievalToolService.execute`: the `documents`
list and the joined context string `"\n\n".join(context_parts)`. -/
def formatResults (rs : List SearchResult) : List Document × String :=
  (rs.map formatDocument, String.intercalate "\n\n" (rs.map contextPart))

/-- The dict returned by `RetrievalToolService.execute`
(`{"documents": ..., "answer": ...}`). -/
structure ExecOut where
  documents : List Document
  answer : Option String
deriving DecidableEq, Repr

/-- Failure of `RetrievalToolService.execute`: either the vector-service
search raised, or the drafting completion raised (logged and re-raised). -/
inductive ExecError where
  | search (e : PineconeServiceError)
  | provider (msg : String)
deriving DecidableEq, Repr

/-- `RetrievalToolService.execute` from `src/services/retrieval_service.py`:
run `similarity_search`, format the results into documents and a context
blob, then make one completion call (the `draftModelCall` event) to draft an
answer from the context. -/
def execute (embed : EmbedOutcome) (iq : IndexQuery)
    (completion : Except String (Option String))
    (query : String) (k : Nat) (nss : List String) :
    Except ExecError ExecOut × List Event :=
  match similarity_search embed iq k nss with
  | .error e => (.error (.search e), [])
  | .ok results =>
    match completion with
    | .error e => (.error (.provider e), [.draftModelCall])
    | .ok ans =>
      (.ok { documents := (formatResults results).1, answer := ans },
       [.draftModelCall])

/-- The orchestrated chat pipeline as wired by
`src/ui/components.py::render_chat_interface`:
`OpenAIService.get_response` with `retrieval_function` bound to
`RetrievalToolService.execute` over `PineconeService.similarity_search`. -/
def chat (firstCall : Except String ResponseMessage)
    (embed : EmbedOutcome) (iq : IndexQuery)
    (completion : Except String (Option String))
    (finalCall : Except String (Option String))
    (query : String) (k : Nat) (nss : List String) :
    Except (ChatError ExecError) (ChatResult ExecOut) × List Event :=
  get_response firstCall (fun q kk ns2 => execute embed iq completion q kk ns2)
    finalCall query k nss

/-- An AI tool as registered in `ToolRegistry`
(`src/services/ai/registry.py`): a name, a description and a parameter
schema (modelled, like metadata, as a string-keyed payload). -/
structure AITool where
  name : String
  description : String
  parameters : Metadata
deriving DecidableEq, Repr

/-- The `ToolRegistry._tools` dict: an insertion-ordered mapping from tool
name to tool. -/
abbrev Registry := List (String × AITool)

/-- Python dict assignment `d[key] = t`: overwrite in place when the key is
present (keeping its position), otherwise append at the end. -/
def dictAssign (m : Registry) (key : String) (t : AITool) : Registry :=
  if m.any (fun p => p.1 == key) then
    m.map (fun p => if p.1 == key then (key, t) else p)
  else
    m ++ [(key, t)]

/-- `ToolRegistry.register`: `cls._tools[tool.name] = tool` (the
`isinstance` guard always passes for well-typed tools). -/
def register (m : Registry) (t : AITool) : Registry :=
  dictAssign m t.name t

/-- `ToolRegistry.get_tool`: `cls._tools.get(name)`, `None` when absent. -/
def get_tool (m : Registry) (n : String) : Option AITool :=
  (m.find? (fun p => p.1 == n)).map (fun p => p.2)

/-- `ToolRegistry.get_all_tools`: `list(cls._tools.values())`. -/
def get_all_tools (m : Registry) : List AITool :=
  m.map (fun p => p.2)

/-- Keys of a registry (dict key view). -/
def regKeys (m : Registry) : List String :=
  m.map Prod.fst

/-- The injection from a service result dict into an `app.py` result dict:
same score and metadata, `"namespace"` key present. -/
def toApp (r : SearchResult) : AppSearchResult :=
  { score := r.score, metadata := r.metadata, nspace := some r.nspace }

/-! Helper lemmas about the stable descending sort. -/

/-- Inserting an element into a list leaves each exact-score class of the
filter unchanged up to putting the new element first: the elements skipped
over by `orderedInsert` all have strictly larger score. -/
theorem filter_score_orderedInsert (s : ℚ) (a : SearchResult)
    (l : List SearchResult) :
    (List.orderedInsert scoreGE a l).filter (fun x => decide (x.score = s)) =
      (a :: l).filter (fun x => decide (x.score = s)) := by
  induction l with
  | nil => rfl
  | cons b t ih =>
    by_cases h : scoreGE a b
    · rw [List.orderedInsert_of_le _ _ h]
    · have hab : a.score < b.score := lt_of_not_le h
      rw [show List.orderedInsert scoreGE a (b :: t) =
          b :: List.orderedInsert scoreGE a t by
        simp only [List.orderedInsert, if_neg h]]
      rw [List.filter_cons, ih]
      by_cases hb : b.score = s
      · have hna : ¬ a.score = s := by
          intro haa
          exact absurd (haa.trans hb.symm ▸ hab) (lt_irrefl _)
        simp [List.filter_cons, hb, hna]
      · simp [List.filter_cons, hb]

/-- The stable sort used by `similarity_search` preserves each exact-score
class of the input in its original (discovery) order. -/
theorem filter_score_insertionSort (s : ℚ) (l : List SearchResult) :
    (List.insertionSort scoreGE l).filter (fun x => decide (x.score = s)) =
      l.filter (fun x => decide (x.score = s)) := by
  induction l with
  | nil => rfl
  | cons a t ih =>
    rw [show List.insertionSort scoreGE (a :: t) =
        List.orderedInsert scoreGE a (List.insertionSort scoreGE t) from rfl]
    rw [filter_score_orderedInsert]
    simp [List.filter_cons, ih]

/-- If every namespace in `nss` fails, the candidate-collection loop leaves
the accumulator unchanged. -/
theorem foldl_svcStep_all_error (iq : IndexQuery) (v : List ℚ) (k : Nat) :
    ∀ (nss : List String) (acc : List SearchResult),
      (∀ n ∈ nss, ∃ e, iq v k (some n) = .error e) →
      nss.foldl (svcStep iq v k) acc = acc := by
  intro nss
  induction nss with
  | nil => intro acc _; rfl
  | cons n t ih =>
    intro acc h
    obtain ⟨e, he⟩ := h n (List.mem_cons_self n t)
    have hstep : svcStep iq v k acc n = acc := by
      unfold svcStep; rw [he]
    rw [List.foldl_cons, hstep]
    exact ih acc (fun n2 hn => h n2 (List.mem_cons_of_mem _ hn))

/-- If the namespace list has no duplicates, every namespace other than `g`
fails, and querying `g` yields `ms`, then the collection loop appends
exactly the tagged matches of `g` to its accumulator: the collected
candidate list is exactly the successful namespace's matches. -/
theorem foldl_svcStep_single_success (iq : IndexQuery) (v : List ℚ) (k : Nat)
    (g : String) (ms : List IndexMatch)
    (hok : iq v k (some g) = .ok ms) :
    ∀ (nss : List String) (acc : List SearchResult), nss.Nodup → g ∈ nss →
      (∀ n ∈ nss, n ≠ g → ∃ e, iq v k (some n) = .error e) →
      nss.foldl (svcStep iq v k) acc =
        acc ++ ms.map (fun m =>
          ({ score := m.score, metadata := m.metadata, nspace := g } : SearchResult)) := by
  intro nss
  induction nss with
  | nil => intro acc _ hg _; exact absurd hg (List.not_mem_nil g)
  | cons n t ih =>
    intro acc hnd hg hfail
    rw [List.foldl_cons]
    by_cases hng : n = g
    · subst hng
      have hstep : svcStep iq v k acc n =
          acc ++ ms.map (fun m =>
            ({ score := m.score, metadata := m.metadata, nspace := n } : SearchResult)) := by
        unfold svcStep
        rw [hok]
      rw [hstep]
      have hnt : n ∉ t := (List.nodup_cons.mp hnd).1
      exact foldl_svcStep_all_error iq v k t _
        (fun n2 hn2 => hfail n2 (List.mem_cons_of_mem _ hn2)
          (fun he => hnt (he ▸ hn2)))
    · obtain ⟨e, he⟩ := hfail n (List.mem_cons_self n t) hng
      have hstep : svcStep iq v k acc n = acc := by
        unfold svcStep
        rw [he]
      rw [hstep]
      have hgt : g ∈ t := by
        rcases List.mem_cons.mp hg with h | h
        · exact absurd h.symm hng
        · exact h
      exact ih acc (List.nodup_cons.mp hnd).2 hgt
        (fun n2 hn2 hne => hfail n2 (List.mem_cons_of_mem _ hn2) hne)

/-! Helper lemmas relating the two `similarity_search` variants. -/

/-- One loop step of the `app.py` variant is the image under `toApp` of the
corresponding service-variant step. -/
theorem appStep_map (iq : IndexQuery) (v : List ℚ) (k : Nat)
    (acc : List SearchResult) (n : String) :
    appStep iq v k (acc.map toApp) n = (svcStep iq v k acc n).map toApp := by
  unfold appStep svcStep
  cases h : iq v k (some n) with
  | error e => rfl
  | ok ms => simp [toApp]

/-- The whole collection loop of the `app.py` variant is the image under
`toApp` of the service-variant loop. -/
theorem foldl_appStep_map (iq : IndexQuery) (v : List ℚ) (k : Nat) :
    ∀ (nss : List String) (acc : List SearchResult),
      nss.foldl (appStep iq v k) (acc.map toApp) =
        (nss.foldl (svcStep iq v k) acc).map toApp := by
  intro nss
  induction nss with
  | nil => intro acc; rfl
  | cons n t ih =>
    intro acc
    rw [List.foldl_cons, List.foldl_cons, appStep_map]
    exact ih (svcStep iq v k acc n)

/-- `orderedInsert` commutes with `toApp` (the two comparison relations
compare the same scores). -/
theorem orderedInsert_map_toApp (a : SearchResult) (l : List SearchResult) :
    (List.orderedInsert scoreGE a l).map toApp =
      List.orderedInsert appScoreGE (toApp a) (l.map toApp) := by
  induction l with
  | nil => rfl
  | cons b t ih =>
    by_cases h : scoreGE a b
    · have h2 : appScoreGE (toApp a) (toApp b) := h
      rw [List.orderedInsert_of_le _ _ h]
      rw [show (b :: t).map toApp = toApp b :: t.map toApp from rfl]
      rw [List.orderedInsert_of_le _ _ h2]
      rfl
    · have h2 : ¬ appScoreGE (toApp a) (toApp b) := h
      rw [show List.orderedInsert scoreGE a (b :: t) =
          b :: List.orderedInsert scoreGE a t by
        simp only [List.orderedInsert, if_neg h]]
      rw [show (b :: t).map toApp = toApp b :: t.map toApp from rfl]
      rw [show List.orderedInsert appScoreGE (toApp a) (toApp b :: t.map toApp) =
          toApp b :: List.orderedInsert appScoreGE (toApp a) (t.map toApp) by
        simp only [List.orderedInsert, if_neg h2]]
      simp [ih]

/-- `insertionSort` commutes with `toApp`. -/
theorem insertionSort_map_toApp (l : List SearchResult) :
    (List.insertionSort scoreGE l).map toApp =
      List.insertionSort appScoreGE (l.map toApp) := by
  induction l with
  | nil => rfl
  | cons a t ih =>
    rw [show List.insertionSort scoreGE (a :: t) =
        List.orderedInsert scoreGE a (List.insertionSort scoreGE t) from rfl]
    rw [orderedInsert_map_toApp, ih]
    rfl

/-! Helper lemmas about the registry dictionary. -/

/-- Membership in the key view, unfolded to an existential over entries. -/
theorem mem_regKeys (m : Registry) (key : String) :
    key ∈ regKeys m ↔ ∃ p ∈ m, p.1 = key := by
  simp [regKeys, List.mem_map, eq_comm]

/-- The guard of `dictAssign` tests exactly key membership. -/
theorem any_eq_true_iff_mem (m : Registry) (key : String) :
    m.any (fun p => p.1 == key) = true ↔ key ∈ regKeys m := by
  rw [List.any_eq_true, mem_regKeys]
  constructor
  · rintro ⟨p, hp, he⟩
    exact ⟨p, hp, by simpa using he⟩
  · rintro ⟨p, hp, he⟩
    exact ⟨p, hp, by simpa using he⟩

/-- Assigning to an absent key appends the pair at the end. -/
theorem dictAssign_not_mem (m : Registry) (key : String) (t : AITool)
    (h : key ∉ regKeys m) : dictAssign m key t = m ++ [(key, t)] := by
  unfold dictAssign
  rw [if_neg (fun hc => h ((any_eq_true_iff_mem m key).mp hc))]

/-- A registry without the key filters to nothing on that key. -/
theorem filter_eq_nil_of_not_mem (m : Registry) (key : String)
    (h : key ∉ regKeys m) :
    m.filter (fun p => p.1 == key) = [] := by
  rw [List.filter_eq_nil_iff]
  intro p hp hc
  exact h ((mem_regKeys m key).mpr ⟨p, hp, by simpa using hc⟩)

/-- Keys after a dict assignment: unchanged when the key was present,
extended by the key otherwise. -/
theorem regKeys_dictAssign (m : Registry) (key : String) (t : AITool) :
    regKeys (dictAssign m key t) =
      if key ∈ regKeys m then regKeys m else regKeys m ++ [key] := by
  by_cases h : key ∈ regKeys m
  · rw [if_pos h]
    unfold dictAssign
    rw [if_pos ((any_eq_true_iff_mem m key).mpr h)]
    unfold regKeys
    rw [List.map_map]
    apply List.map_congr_left
    intro p _
    by_cases hp : p.1 = key
    · simp [hp]
    · simp [hp]
  · rw [if_neg h, dictAssign_not_mem m key t h]
    simp [regKeys]

/-- Replacing the value at `key` touches no entry when `key` is absent. -/
theorem filter_map_replace_nil (key : String) (t : AITool) :
    ∀ mt : Registry, key ∉ regKeys mt →
      (mt.map (fun p => if p.1 == key then (key, t) else p)).filter
        (fun p => p.1 == key) = [] := by
  intro mt
  induction mt with
  | nil => intro _; rfl
  | cons b bt ih =>
    intro h
    have hb : ¬ b.1 = key :=
      fun hc => h ((mem_regKeys _ _).mpr ⟨b, List.mem_cons_self b bt, hc⟩)
    have h2 : key ∉ regKeys bt := fun hc => h (by
      rcases (mem_regKeys bt key).mp hc with ⟨p, hp, he⟩
      exact (mem_regKeys _ _).mpr ⟨p, List.mem_cons_of_mem b hp, he⟩)
    have hfb : (if b.1 == key then (key, t) else b) = b := by
      rw [if_neg]
      simpa using hb
    rw [List.map_cons, hfb, List.filter_cons_of_neg]
    · exact ih h2
    · simpa using hb

/-- In a registry with unique keys containing `key`, replacing the value at
`key` leaves exactly one entry with that key: the new one. -/
theorem filter_replace (key : String) (t : AITool) :
    ∀ m : Registry, (regKeys m).Nodup → key ∈ regKeys m →
      (m.map (fun p => if p.1 == key then (key, t) else p)).filter
        (fun p => p.1 == key) = [(key, t)] := by
  intro m
  induction m with
  | nil => intro _ h; simp [regKeys] at h
  | cons a mt ih =>
    intro hnd hmem
    have hnd0 : a.1 ∉ regKeys mt ∧ (regKeys mt).Nodup := by
      have hc : (a.1 :: regKeys mt).Nodup := by simpa [regKeys] using hnd
      exact ⟨(List.nodup_cons.mp hc).1, (List.nodup_cons.mp hc).2⟩
    by_cases ha : a.1 = key
    · have hknot : key ∉ regKeys mt := ha ▸ hnd0.1
      have hfa : (if a.1 == key then (key, t) else a) = (key, t) := by
        rw [if_pos]
        simpa using ha
      rw [List.map_cons, hfa, List.filter_cons_of_pos]
      · rw [filter_map_replace_nil key t mt hknot]
      · simp
    · have hmem2 : key ∈ regKeys mt := by
        rcases (mem_regKeys _ _).mp hmem with ⟨p, hp, he⟩
        rcases List.mem_cons.mp hp with h1 | h2
        · exact absurd (h1 ▸ he) ha
        · exact (mem_regKeys _ _).mpr ⟨p, h2, he⟩
      have hfa : (if a.1 == key then (key, t) else a) = a := by
        rw [if_neg]
        simpa using ha
      rw [List.map_cons, hfa, List.filter_cons_of_neg]
      · exact ih hnd0.2 hmem2
      · simpa using ha

/-- After a dict assignment at `key`, exactly one entry with key `key`
remains: the assigned one (for unique-keyed registries). -/
theorem filter_dictAssign_key (m : Registry) (key : String) (t : AITool)
    (hnd : (regKeys m).Nodup) :
    (dictAssign m key t).filter (fun p => p.1 == key) = [(key, t)] := by
  by_cases h : key ∈ regKeys m
  · unfold dictAssign
    rw [if_pos ((any_eq_true_iff_mem m key).mpr h)]
    exact filter_replace key t m hnd h
  · rw [dictAssign_not_mem m key t h, List.filter_append,
      filter_eq_nil_of_not_mem m key h]
    simp

/-- Dict assignment preserves key uniqueness. -/
theorem regKeys_nodup_dictAssign (m : Registry) (key : String) (t : AITool)
    (h : (regKeys m).Nodup) : (regKeys (dictAssign m key t)).Nodup := by
  rw [regKeys_dictAssign]
  by_cases hk : key ∈ regKeys m
  · rw [if_pos hk]; exact h
  · rw [if_neg hk]
    simp [List.nodup_append, h, hk]

/-- The keys of a registry built by a sequence of registrations are unique
and are exactly the starting keys together with the registered names. -/
theorem regKeys_foldl_register :
    ∀ (regs : List AITool) (m : Registry), (regKeys m).Nodup →
      (regKeys (regs.foldl register m)).Nodup ∧
      ∀ x, x ∈ regKeys (regs.foldl register m) ↔
        x ∈ regKeys m ∨ x ∈ regs.map AITool.name := by
  intro regs
  induction regs with
  | nil => intro m h; exact ⟨h, by simp⟩
  | cons t ts ih =>
    intro m h
    rw [List.foldl_cons]
    have h2 : (regKeys (register m t)).Nodup := regKeys_nodup_dictAssign m t.name t h
    obtain ⟨ha, hb⟩ := ih (register m t) h2
    refine ⟨ha, fun x => ?_⟩
    rw [hb x]
    have hmem : x ∈ regKeys (register m t) ↔ x ∈ regKeys m ∨ x = t.name := by
      unfold register
      rw [regKeys_dictAssign]
      by_cases hk : t.name ∈ regKeys m
      · rw [if_pos hk]
        constructor
        · exact Or.inl
        · rintro (hx | rfl)
          · exact hx
          · exact hk
      · rw [if_neg hk]
        simp [List.mem_append]
    rw [hmem]
    simp [List.mem_cons]
    tauto

/-- Reduction of the service search on the non-empty-namespaces path. -/
theorem similarity_search_ok_of_ne (v : List ℚ) (iq : IndexQuery) (k : Nat)
    (nss : List String) (hne : nss ≠ []) :
    similarity_search (.ok v) iq k nss =
      .ok ((List.insertionSort scoreGE (collectCandidates iq v k nss)).take k) := by
  unfold similarity_search
  exact if_pos hne

/-- Reduction of the `app.py` search on the non-empty-namespaces path. -/
theorem app_similarity_search_ok_of_ne (v : List ℚ) (iq : IndexQuery) (k : Nat)
    (nss : List String) (hne : nss ≠ []) :
    app_similarity_search (.ok v) iq k nss =
      .ok ((List.insertionSort appScoreGE (nss.foldl (appStep iq v k) [])).take k) := by
  unfold app_similarity_search
  exact if_pos hne

/-! Claim theorems. -/

/-- C3, counterexample: with one namespace whose index query fails (and a
successful embedding), `similarity_search` does not raise
`SearchBackendError` with the underlying cause — it returns the empty
result list.  The catch-and-continue loop swallows every per-namespace
failure and the sort-and-truncate of the empty candidate list yields an
ordinary empty success. -/
theorem c3_counterexample :
    similarity_search (.ok [1]) (fun _ _ _ => .error "backend down") 3
      ["repo_githubcloner"] = .ok [] := by
  rfl

/-- C3 (amended): for every search with non-empty namespaces where every
single-namespace index query fails, the search returns the empty result
list and does not raise. -/
theorem c3_all_fail_returns_empty (v : List ℚ) (iq : IndexQuery) (k : Nat)
    (nss : List String) (hne : nss ≠ [])
    (hfail : ∀ n ∈ nss, ∃ e, iq v k (some n) = .error e) :
    similarity_search (.ok v) iq k nss = .ok [] := by
  have hcol : collectCandidates iq v k nss = [] :=
    foldl_svcStep_all_error iq v k nss [] hfail
  rw [similarity_search_ok_of_ne v iq k nss hne, hcol]
  simp

/-- Witness for C3 (amended) at a concrete input with two failing
namespaces. -/
theorem c3_all_fail_returns_empty_witness :
    similarity_search (.ok [1]) (fun _ _ _ => .error "backend down") 3
      ["a", "b"] = .ok [] :=
  c3_all_fail_returns_empty [1] (fun _ _ _ => .error "backend down") 3
    ["a", "b"] (by decide) (fun _ _ => ⟨"backend down", rfl⟩)

/-- C4: for all k ≥ 1 and every non-empty namespaces list (with a
successful embedding), the search result has length at most k and is
sorted by score descending; ties between exactly-equal scores are broken
stably in discovery order: for every score, the score class of the result
is a prefix of the score class of the discovery-ordered candidate list
(namespace iteration order, then per-namespace result order). -/
theorem c4_ranked_truncated_stable (v : List ℚ) (iq : IndexQuery) (k : Nat)
    (nss : List String) (hk : 1 ≤ k) (hne : nss ≠ []) :
    ∃ r, similarity_search (.ok v) iq k nss = .ok r ∧
      r.length ≤ k ∧
      List.Sorted scoreGE r ∧
      ∀ s : ℚ, r.filter (fun x => decide (x.score = s)) <+:
        (collectCandidates iq v k nss).filter (fun x => decide (x.score = s)) := by
  refine ⟨(List.insertionSort scoreGE (collectCandidates iq v k nss)).take k,
    ?_, ?_, ?_, ?_⟩
  · exact similarity_search_ok_of_ne v iq k nss hne
  · rw [List.length_take]
    exact min_le_left _ _
  · exact List.Pairwise.sublist (List.take_sublist k _)
      (List.sorted_insertionSort scoreGE _)
  · intro s
    obtain ⟨tl, htl⟩ :=
      List.take_prefix k (List.insertionSort scoreGE (collectCandidates iq v k nss))
    refine ⟨tl.filter (fun x => decide (x.score = s)), ?_⟩
    rw [← List.filter_append, htl, filter_score_insertionSort]

/-- Witness for C4 at a concrete input: two namespaces, three candidates
with a score tie across namespaces, k = 2. -/
theorem c4_ranked_truncated_stable_witness :
    ∃ r, similarity_search (.ok [1])
        (fun _ _ n => match n with
          | some "a" => .ok ([⟨1, [("text", "ta")]⟩, ⟨2, [("text", "tb")]⟩] :
              List IndexMatch)
          | some _ => .ok ([⟨1, [("text", "tc")]⟩] : List IndexMatch)
          | none => .ok []) 2 ["a", "b"] = .ok r ∧
      r.length ≤ 2 ∧
      List.Sorted scoreGE r ∧
      ∀ s : ℚ, r.filter (fun x => decide (x.score = s)) <+:
        (collectCandidates (fun _ _ n => match n with
          | some "a" => .ok ([⟨1, [("text", "ta")]⟩, ⟨2, [("text", "tb")]⟩] :
              List IndexMatch)
          | some _ => .ok ([⟨1, [("text", "tc")]⟩] : List IndexMatch)
          | none => .ok []) [1] 2 ["a", "b"]).filter
          (fun x => decide (x.score = s)) :=
  c4_ranked_truncated_stable [1] _ 2 ["a", "b"] (by decide) (by decide)

/-- C5: with at least two distinct namespaces, when every namespace except
`g` fails and `g` succeeds with matches `ms`, the search does not raise and
actually returns the successful namespace's matches (up to k): the result
is exactly the tagged matches of `g`, score-ranked and truncated to the
first k.  In particular its length is `min k` of the number of matches of
`g`, every result entry is one of the matches of `g`, and whenever the
matches of `g` fit within k, every single one of them appears in the
result. -/
theorem c5_partial_failure (v : List ℚ) (iq : IndexQuery) (k : Nat)
    (nss : List String) (g : String) (ms : List IndexMatch)
    (hnd : nss.Nodup) (hlen : 2 ≤ nss.length) (hg : g ∈ nss)
    (hok : iq v k (some g) = .ok ms)
    (hfail : ∀ n ∈ nss, n ≠ g → ∃ e, iq v k (some n) = .error e) :
    ∃ r, similarity_search (.ok v) iq k nss = .ok r ∧
      r = (List.insertionSort scoreGE (ms.map (fun m =>
        ({ score := m.score, metadata := m.metadata, nspace := g } : SearchResult)))).take k ∧
      r.length = min k (ms.map (fun m =>
        ({ score := m.score, metadata := m.metadata, nspace := g } : SearchResult))).length ∧
      (∀ x ∈ r, x ∈ ms.map (fun m =>
        ({ score := m.score, metadata := m.metadata, nspace := g } : SearchResult))) ∧
      ((ms.map (fun m =>
          ({ score := m.score, metadata := m.metadata, nspace := g } : SearchResult))).length ≤ k →
        ∀ x ∈ ms.map (fun m =>
          ({ score := m.score, metadata := m.metadata, nspace := g } : SearchResult)), x ∈ r) := by
  have hne : nss ≠ [] := by
    intro h
    rw [h] at hlen
    simp at hlen
  have hcol : collectCandidates iq v k nss = ms.map (fun m =>
      ({ score := m.score, metadata := m.metadata, nspace := g } : SearchResult)) := by
    have h := foldl_svcStep_single_success iq v k g ms hok nss [] hnd hg hfail
    simpa [collectCandidates] using h
  refine ⟨(List.insertionSort scoreGE (ms.map (fun m =>
      ({ score := m.score, metadata := m.metadata, nspace := g } : SearchResult)))).take k,
    ?_, rfl, ?_, ?_, ?_⟩
  · rw [similarity_search_ok_of_ne v iq k nss hne, hcol]
  · rw [List.length_take, List.length_insertionSort]
  · intro x hx
    exact (List.perm_insertionSort scoreGE _).mem_iff.mp (List.mem_of_mem_take hx)
  · intro hlk x hx
    rw [List.take_of_length_le]
    · exact (List.perm_insertionSort scoreGE _).mem_iff.mpr hx
    · rw [List.length_insertionSort]
      exact hlk

/-- Witness for C5 at a concrete input: namespace a fails, namespace b
succeeds with one match. -/
theorem c5_partial_failure_witness :
    ∃ r, similarity_search (.ok [1])
        (fun _ _ n => match n with
          | some "b" => .ok ([⟨1, [("text", "tb")]⟩] : List IndexMatch)
          | _ => .error "down") 2 ["a", "b"] = .ok r ∧
      r = (List.insertionSort scoreGE (([⟨1, [("text", "tb")]⟩] : List IndexMatch).map
        (fun m => (⟨m.score, m.metadata, "b"⟩ : SearchResult)))).take 2 ∧
      r.length = min 2 (([⟨1, [("text", "tb")]⟩] : List IndexMatch).map
        (fun m => (⟨m.score, m.metadata, "b"⟩ : SearchResult))).length ∧
      (∀ x ∈ r, x ∈ ([⟨1, [("text", "tb")]⟩] : List IndexMatch).map
        (fun m => (⟨m.score, m.metadata, "b"⟩ : SearchResult))) ∧
      ((([⟨1, [("text", "tb")]⟩] : List IndexMatch).map
          (fun m => (⟨m.score, m.metadata, "b"⟩ : SearchResult))).length ≤ 2 →
        ∀ x ∈ ([⟨1, [("text", "tb")]⟩] : List IndexMatch).map
          (fun m => (⟨m.score, m.metadata, "b"⟩ : SearchResult)), x ∈ r) :=
  c5_partial_failure [1] _ 2 ["a", "b"] "b" _ (by decide) (by decide) (by decide)
    rfl
    (fun n hn hne => by
      simp only [List.mem_cons] at hn
      rcases hn with rfl | rfl | h
      · exact ⟨"down", rfl⟩
      · exact absurd rfl hne
      · exact absurd h (List.not_mem_nil n))

/-- C10: on the non-empty-namespaces path, the `app.py` variant and the
service variant of `similarity_search` agree for every query, k, namespace
list and identical collaborator outcomes: the app result is exactly the
service result with each entry carrying its namespace tag (the injection
`toApp`), errors included. -/
theorem c10_variants_agree (embed : EmbedOutcome) (iq : IndexQuery) (k : Nat)
    (nss : List String) (hne : nss ≠ []) :
    app_similarity_search embed iq k nss =
      (similarity_search embed iq k nss).map (List.map toApp) := by
  cases embed with
  | error e => rfl
  | ok v =>
    rw [similarity_search_ok_of_ne v iq k nss hne,
      app_similarity_search_ok_of_ne v iq k nss hne]
    have h1 : nss.foldl (appStep iq v k) [] =
        (collectCandidates iq v k nss).map toApp := by
      simpa using foldl_appStep_map iq v k nss []
    rw [h1, ← insertionSort_map_toApp, ← List.map_take]
    rfl

/-- Witness for C10 at a concrete input with one namespace and one match. -/
theorem c10_variants_agree_witness :
    app_similarity_search (.ok [1])
        (fun _ _ _ => .ok [{ score := (1 : ℚ), metadata := [("text", "t")] }])
        2 ["a"] =
      (similarity_search (.ok [1])
        (fun _ _ _ => .ok [{ score := (1 : ℚ), metadata := [("text", "t")] }])
        2 ["a"]).map (List.map toApp) :=
  c10_variants_agree (.ok [1]) _ 2 ["a"] (by decide)

/-- C7: the retrieval formatter is a total, pure function: on the empty
match sequence it returns an empty document sequence and an empty joined
string; for every input the content of each produced document is
`metadata.get("text", "")` of the corresponding match (defaulting to the
empty string, never failing); and applying it twice to the same input
yields the same output. -/
theorem c7_formatter_total_pure :
    formatResults [] = ([], "") ∧
    (∀ rs : List SearchResult,
      (formatResults rs).1.map Document.content =
        rs.map (fun r => metaGetD r.metadata "text" "")) ∧
    ∀ rs : List SearchResult, formatResults rs = formatResults rs := by
  refine ⟨rfl, ?_, fun _ => rfl⟩
  intro rs
  simp only [formatResults, List.map_map]
  rfl

/-- C8: registering two tools with the same name leaves exactly one entry
under that name — the second (last-write-wins, never an error) — and after
any sequence of registrations starting from the empty registry, the length
of `get_all_tools` equals the number of distinct names ever registered. -/
theorem c8_registry_last_write_wins (m : Registry) (t1 t2 : AITool)
    (hnd : (regKeys m).Nodup) (hname : t1.name = t2.name) :
    (register (register m t1) t2).filter (fun p => p.1 == t1.name) =
      [(t1.name, t2)] ∧
    ∀ regs : List AITool,
      (get_all_tools (regs.foldl register [])).length =
        (regs.map AITool.name).toFinset.card := by
  constructor
  · unfold register
    rw [hname]
    exact filter_dictAssign_key _ t2.name t2
      (regKeys_nodup_dictAssign m t2.name t1 hnd)
  · intro regs
    obtain ⟨hnd2, hmem⟩ := regKeys_foldl_register regs [] (by simp [regKeys])
    have hlen : (get_all_tools (regs.foldl register [])).length =
        (regKeys (regs.foldl register [])).length := by
      simp [get_all_tools, regKeys]
    rw [hlen, ← List.toFinset_card_of_nodup hnd2]
    congr 1
    ext x
    simp only [List.mem_toFinset]
    rw [hmem x]
    simp [regKeys]

/-- Witness for C8 on the empty registry with two concrete tools sharing a
name. -/
theorem c8_registry_last_write_wins_witness :
    (register (register []
        (⟨"search_knowledge_base", "first", []⟩ : AITool))
        (⟨"search_knowledge_base", "second", []⟩ : AITool)).filter
      (fun p => p.1 == "search_knowledge_base") =
      [("search_knowledge_base",
        (⟨"search_knowledge_base", "second", []⟩ : AITool))] :=
  (c8_registry_last_write_wins []
    (⟨"search_knowledge_base", "first", []⟩ : AITool)
    (⟨"search_knowledge_base", "second", []⟩ : AITool)
    List.nodup_nil rfl).1

/-- C1, code-bug evaluation: the model proposes num_results 5 and
namespaces x while the caller supplies k 3 and namespaces y; the
orchestrator invokes retrieval with the model-proposed values (the trace
records the retrieval call with 5 and x) and never with the caller-supplied
values, although the spec requires the caller values to always win. -/
theorem c1_caller_values_not_enforced :
    (chat (.ok (⟨none, [⟨"call_1", "search_knowledge_base",
        ⟨"how does auth work", ⟨5, ["x"]⟩⟩⟩]⟩ : ResponseMessage))
      (.ok [1]) (fun _ _ _ => .ok []) (.ok (some "draft")) (.ok (some "final"))
      "how does auth work" 3 ["y"]).2 =
      [Event.initialModelCall, Event.retrievalCall "how does auth work" 5 ["x"],
        Event.draftModelCall, Event.finalModelCall] ∧
    Event.retrievalCall "how does auth work" 3 ["y"] ∉
      [Event.initialModelCall, Event.retrievalCall "how does auth work" 5 ["x"],
        Event.draftModelCall, Event.finalModelCall] := by
  exact ⟨rfl, by decide⟩

/-- C2, counterexample: on a first response with content and no tool calls,
the returned answer is the hard-coded apology, not the content of the model
response, so the answer is not returned verbatim. -/
theorem c2_counterexample :
    (chat (.ok (⟨some "Direct model answer", []⟩ : ResponseMessage))
        (.ok [1]) (fun _ _ _ => .ok []) (.ok (some "draft")) (.ok (some "final"))
        "q" 3 ["a"]).1 =
      .ok ⟨some apologyMessage, .emptyList⟩ ∧
    some apologyMessage ≠ some "Direct model answer" := by
  exact ⟨rfl, by decide⟩

/-- C2 (amended): on a first response with an empty tool-call list, the
orchestrator returns the hard-coded apology message with an empty document
list, and never invokes the retrieval function (no retrieval event in the
trace). -/
theorem c2_apology_on_empty_tool_calls (ρ α : Type)
    (firstCall : Except String ResponseMessage)
    (retrieval : String → Nat → List String → Except ρ α × List Event)
    (finalCall : Except String (Option String))
    (query : String) (k : Nat) (nss : List String)
    (rm : ResponseMessage) (h1 : firstCall = .ok rm)
    (h2 : rm.tool_calls = []) :
    get_response firstCall retrieval finalCall query k nss =
      (.ok ⟨some apologyMessage, .emptyList⟩, [.initialModelCall]) ∧
    ∀ q kk ns2, Event.retrievalCall q kk ns2 ∉
      (get_response firstCall retrieval finalCall query k nss).2 := by
  subst h1
  cases rm with
  | mk content tcs =>
    replace h2 : tcs = [] := h2
    subst h2
    refine ⟨rfl, ?_⟩
    intro q kk ns2
    show Event.retrievalCall q kk ns2 ∉ [Event.initialModelCall]
    simp

/-- Witness for C2 (amended) at a concrete input. -/
theorem c2_apology_on_empty_tool_calls_witness :
    get_response (Except.ok (⟨some "Direct model answer", []⟩ : ResponseMessage))
        (fun _ _ _ => ((Except.ok () : Except Unit Unit), ([] : List Event)))
        (.ok (some "unused")) "q" 3 ["a"] =
      (.ok ⟨some apologyMessage, .emptyList⟩, [.initialModelCall]) :=
  (c2_apology_on_empty_tool_calls Unit Unit
    (Except.ok (⟨some "Direct model answer", []⟩ : ResponseMessage))
    (fun _ _ _ => ((Except.ok () : Except Unit Unit), ([] : List Event)))
    (.ok (some "unused")) "q" 3 ["a"]
    (⟨some "Direct model answer", []⟩ : ResponseMessage) rfl rfl).1

/-- C6, counterexample: a first tool call named after no registered tool
still drives the full pipeline: the run succeeds (no UnknownToolError
exists in the code) and the trace contains the retrieval call, so
retrieval is invoked rather than prevented. -/
theorem c6_counterexample :
    (chat (.ok (⟨none, [⟨"call_1", "made_up_tool", ⟨"q", ⟨2, ["a"]⟩⟩⟩]⟩ :
        ResponseMessage))
      (.ok [1]) (fun _ _ _ => .ok []) (.ok (some "draft")) (.ok (some "final"))
      "q" 2 ["a"]).1 =
      .ok ⟨some "final", .searchResults ⟨[], some "draft"⟩⟩ ∧
    Event.retrievalCall "q" 2 ["a"] ∈
      (chat (.ok (⟨none, [⟨"call_1", "made_up_tool", ⟨"q", ⟨2, ["a"]⟩⟩⟩]⟩ :
          ResponseMessage))
        (.ok [1]) (fun _ _ _ => .ok []) (.ok (some "draft")) (.ok (some "final"))
        "q" 2 ["a"]).2 := by
  exact ⟨rfl, by decide⟩

/-- C6 (amended): the orchestrator performs no tool-name validation
against the registry: whatever the name of the first tool call, retrieval
is invoked with the arguments of that call; and looking up an unknown name
in the registry yields none rather than an error. -/
theorem c6_no_name_validation (ρ α : Type)
    (retrieval : String → Nat → List String → Except ρ α × List Event)
    (finalCall : Except String (Option String))
    (query : String) (k : Nat) (nss : List String)
    (firstCall : Except String ResponseMessage)
    (rm : ResponseMessage) (tc : ToolCall) (rest : List ToolCall)
    (h1 : firstCall = .ok rm) (h2 : rm.tool_calls = tc :: rest) :
    Event.retrievalCall tc.arguments.query tc.arguments.options.num_results
        tc.arguments.options.namespaces ∈
      (get_response firstCall retrieval finalCall query k nss).2 ∧
    ∀ (m : Registry) (n : String), n ∉ regKeys m → get_tool m n = none := by
  constructor
  · subst h1
    cases rm with
    | mk content tcs =>
      replace h2 : tcs = tc :: rest := h2
      subst h2
      rw [show get_response (Except.ok (⟨content, tc :: rest⟩ : ResponseMessage))
          retrieval finalCall query k nss =
          getRespAfterRetrieval finalCall tc
            (retrieval tc.arguments.query tc.arguments.options.num_results
              tc.arguments.options.namespaces) from rfl]
      rcases hrr : retrieval tc.arguments.query tc.arguments.options.num_results
        tc.arguments.options.namespaces with ⟨r, revs⟩
      cases r with
      | error e => simp [getRespAfterRetrieval]
      | ok out =>
        cases finalCall with
        | error e2 => simp [getRespAfterRetrieval]
        | ok c => simp [getRespAfterRetrieval]
  · intro m n hn
    have hf : m.find? (fun p => p.1 == n) = none := by
      rw [List.find?_eq_none]
      intro p hp hc
      exact hn ((mem_regKeys m n).mpr ⟨p, hp, by simpa using hc⟩)
    unfold get_tool
    rw [hf]
    rfl

/-- Witness for C6 (amended) at a concrete input with an unregistered tool
name. -/
theorem c6_no_name_validation_witness :
    Event.retrievalCall "qq" 5 ["x"] ∈
      (get_response (Except.ok (⟨none, [⟨"id1", "made_up_tool",
          ⟨"qq", ⟨5, ["x"]⟩⟩⟩]⟩ : ResponseMessage))
        (fun _ _ _ => ((Except.ok () : Except Unit Unit), ([] : List Event)))
        (.ok (some "final")) "qq" 2 ["a"]).2 :=
  (c6_no_name_validation Unit Unit
    (fun _ _ _ => ((Except.ok () : Except Unit Unit), ([] : List Event)))
    (.ok (some "final")) "qq" 2 ["a"]
    (Except.ok (⟨none, [⟨"id1", "made_up_tool", ⟨"qq", ⟨5, ["x"]⟩⟩⟩]⟩ :
      ResponseMessage))
    (⟨none, [⟨"id1", "made_up_tool", ⟨"qq", ⟨5, ["x"]⟩⟩⟩]⟩ : ResponseMessage)
    (⟨"id1", "made_up_tool", ⟨"qq", ⟨5, ["x"]⟩⟩⟩ : ToolCall) [] rfl rfl).1

/-- C9: when the embedding collaborator call fails, the chat pipeline
raises — the error is the service error wrapping the embedding failure
(the EmbeddingError kind of the spec) — and no answer-drafting model call
is ever made: neither the drafting completion inside the retrieval tool
nor the final completion of the orchestrator appears in the trace. -/
theorem c9_embedding_failure_blocks_draft (e : String) (iq : IndexQuery)
    (completion : Except String (Option String))
    (finalCall : Except String (Option String))
    (query : String) (k : Nat) (nss : List String)
    (firstCall : Except String ResponseMessage)
    (rm : ResponseMessage) (tc : ToolCall) (rest : List ToolCall)
    (h1 : firstCall = .ok rm) (h2 : rm.tool_calls = tc :: rest) :
    (chat firstCall (.error e) iq completion finalCall query k nss).1 =
      .error (.retrieval (.search (.serviceError
        ("Error in similarity search: " ++ e)))) ∧
    Event.draftModelCall ∉
      (chat firstCall (.error e) iq completion finalCall query k nss).2 ∧
    Event.finalModelCall ∉
      (chat firstCall (.error e) iq completion finalCall query k nss).2 := by
  subst h1
  cases rm with
  | mk content tcs =>
    replace h2 : tcs = tc :: rest := h2
    subst h2
    refine ⟨rfl, ?_, ?_⟩
    · show Event.draftModelCall ∉ [Event.initialModelCall,
        Event.retrievalCall tc.arguments.query tc.arguments.options.num_results
          tc.arguments.options.namespaces]
      simp
    · show Event.finalModelCall ∉ [Event.initialModelCall,
        Event.retrievalCall tc.arguments.query tc.arguments.options.num_results
          tc.arguments.options.namespaces]
      simp

/-- Witness for C9 at a concrete input. -/
theorem c9_embedding_failure_blocks_draft_witness :
    (chat (Except.ok (⟨none, [⟨"id1", "search_knowledge_base",
          ⟨"qq", ⟨2, ["a"]⟩⟩⟩]⟩ : ResponseMessage))
        (.error "quota exceeded") (fun _ _ _ => .ok []) (.ok (some "draft"))
        (.ok (some "final")) "qq" 2 ["a"]).1 =
      .error (.retrieval (.search (.serviceError
        ("Error in similarity search: " ++ "quota exceeded")))) :=
  (c9_embedding_failure_blocks_draft "quota exceeded" (fun _ _ _ => .ok [])
    (.ok (some "draft")) (.ok (some "final")) "qq" 2 ["a"]
    (Except.ok (⟨none, [⟨"id1", "search_knowledge_base",
      ⟨"qq", ⟨2, ["a"]⟩⟩⟩]⟩ : ResponseMessage))
    (⟨none, [⟨"id1", "search_knowledge_base", ⟨"qq", ⟨2, ["a"]⟩⟩⟩]⟩ :
      ResponseMessage)
    (⟨"id1", "search_knowledge_base", ⟨"qq", ⟨2, ["a"]⟩⟩⟩ : ToolCall) []
    rfl rfl).1
